import Mathlib

/-!
Verification of the resilient API-access layer of a workspace exporter.

The development shallowly embeds the Python source `coda_exporter.py`:

* `sanitize_filename` — the filename sanitizer (module-level function);
* `mkReqLoop` / `make_request` — the retry loop of `CodaAPI._make_request`,
  driven by an environment `env : Nat → Outcome` giving the outcome of each
  successive HTTP call (one call per loop iteration);
* `paginateAux` / `paginate` — the cursor pagination generator `CodaAPI.paginate`;
* `pollStep` / `pollLoop` / `export_page` — the submit/poll/download protocol of
  `CodaAPI.export_page`.

Side effects are made explicit: each model returns, besides its result, the
number of HTTP calls performed and the list of `time.sleep` durations (in
seconds, as rationals, since one of the sleeps is 0.1 s).  The poll loop also
records the successive values of the `consecutive_failures` variable.
-/

/-! ## sanitize_filename (source lines 27-47) -/

/-- The character class of the first regex substitution (source line 33),
which replaces each of the nine reserved filename characters by an
underscore. -/
def forbiddenChar (c : Char) : Bool :=
  c = '<' || c = '>' || c = ':' || c = '"' || c = '/' || c = '\\' || c = '|' || c = '?' || c = '*'

/-- The character class removed by the second regex substitution (source
line 34): the control characters U+0000 to U+001F and U+007F to U+009F. -/
def isControlChar (c : Char) : Bool :=
  c.toNat ≤ 0x1f || (0x7f ≤ c.toNat && c.toNat ≤ 0x9f)

/-- The whitespace class used both by Python `str.strip()` and by `\s` in a
Unicode `str` pattern: the characters for which `str.isspace()` holds. -/
def isPythonSpace (c : Char) : Bool :=
  (0x9 ≤ c.toNat && c.toNat ≤ 0xd) || (0x1c ≤ c.toNat && c.toNat ≤ 0x1f) ||
  c.toNat = 0x20 || c.toNat = 0x85 || c.toNat = 0xa0 || c.toNat = 0x1680 ||
  (0x2000 ≤ c.toNat && c.toNat ≤ 0x200a) || c.toNat = 0x2028 || c.toNat = 0x2029 ||
  c.toNat = 0x202f || c.toNat = 0x205f || c.toNat = 0x3000

/-- Remove the leading characters satisfying `p` (Python `lstrip`). -/
def lstripWhen (p : Char → Bool) (l : List Char) : List Char :=
  l.dropWhile p

/-- Remove the trailing characters satisfying `p` (Python `rstrip`). -/
def rstripWhen (p : Char → Bool) (l : List Char) : List Char :=
  (l.reverse.dropWhile p).reverse

/-- Remove leading and trailing characters satisfying `p` (Python `strip`). -/
def stripWhen (p : Char → Bool) (l : List Char) : List Char :=
  rstripWhen p (lstripWhen p l)

/-- Replace every maximal run of characters satisfying `p` by the single
character `rep`; this is a regex substitution of one-or-more repetitions of a
character class by a replacement character (source lines 36 and 37).  The
boolean argument tracks whether the previous character was in a run. -/
def collapseRuns (p : Char → Bool) (rep : Char) : Bool → List Char → List Char
  | _, [] => []
  | inRun, c :: rest =>
    if p c then
      if inRun then collapseRuns p rep true rest
      else rep :: collapseRuns p rep true rest
    else c :: collapseRuns p rep false rest

/-- The sanitation pipeline of `sanitize_filename` before the emptiness and
length checks (source lines 33-38). -/
def presan (name : List Char) : List Char :=
  let s1 := name.map (fun c => if forbiddenChar c then '_' else c)
  let s2 := s1.filter (fun c => !isControlChar c)
  let s3 := stripWhen isPythonSpace s2
  let s4 := collapseRuns isPythonSpace '_' false s3
  let s5 := collapseRuns (fun c => c = '_') '_' false s4
  stripWhen (fun c => c = '_') s5

/-- `sanitize_filename(name, max_length)` (source lines 27-47); Python default
for `max_length` is 100. -/
def sanitize_filename (name : List Char) (max_length : Nat) : List Char :=
  let base := if presan name = [] then "untitled".toList else presan name
  if max_length < base.length then rstripWhen (fun c => c = '_') (base.take max_length)
  else base

/-! ## `_make_request` (source lines 95-182)

One loop iteration per HTTP call; `env a` is what the call of attempt `a`
(0-based) produces.  `Outcome.httpError code retryAfter detail` stands for a
response on which `raise_for_status()` raises (or, for code 429, the response
caught by the rate-limit check before `raise_for_status`); `retryAfter` is the
parsed `Retry-After` header and `detail` the optional `message` field of the
JSON error body. -/

inductive Outcome where
  | success (isJson : Bool) (body : String)
  | httpError (code : Nat) (retryAfter : Option Nat) (detail : Option String)
  | timeout (e : String)
  | connError (e : String)
  | netError (e : String)
deriving DecidableEq, Repr

/-- Result of `_make_request`: either the returned body or the message of the
raised `CodaAPIError`. -/
inductive ReqOut where
  | body (s : String)
  | err (msg : String)
deriving DecidableEq, Repr

structure RunResult where
  calls : Nat
  sleeps : List ℚ
  result : ReqOut
deriving DecidableEq, Repr

/-- The `CodaAPIError` message built in the `HTTPError` handler
(source lines 148-171). -/
def httpErrorMsg (method endpoint : String) (code : Nat) (detail : Option String) : String :=
  let base := "HTTP " ++ Nat.repr code ++ " error for " ++ method ++ " " ++ endpoint
  let suffix :=
    if code = 401 then " - Invalid API token"
    else if code = 403 then " - Access forbidden (check permissions)"
    else if code = 404 then " - Resource not found"
    else if 500 ≤ code then " - Server error (try again later)"
    else ""
  match detail with
  | some m => base ++ suffix ++ ": " ++ m
  | none => base ++ suffix

/-- The retry loop of `_make_request` (source lines 103-182).  `fuel` is the
number of remaining loop iterations (initially `maxRetries + 1`), `a` the
current value of `attempt`, `sleeps` the `time.sleep` calls so far.  Running
out of fuel is the fall-through after the `for` loop (source line 182). -/
def mkReqLoop (env : Nat → Outcome) (method endpoint : String) (maxRetries : Nat) :
    Nat → Nat → List ℚ → RunResult
  | 0, a, sleeps =>
    ⟨a, sleeps, .err ("Unexpected error: max retries exceeded for " ++ method ++ " " ++ endpoint)⟩
  | fuel+1, a, sleeps =>
    -- exponential backoff before every attempt but the first (lines 105-109)
    let sleeps := if 0 < a then sleeps ++ [((2 : ℚ) ^ a)] else sleeps
    match env a with
    | .success _ body =>
      -- line 124: small fixed delay (0.1 s) after a successful call, then return
      ⟨a + 1, sleeps ++ [mkRat 1 10], .body body⟩
    | .httpError code retryAfter detail =>
      if code = 429 then
        -- lines 115-119: sleep Retry-After (default 60) and continue the loop
        mkReqLoop env method endpoint maxRetries fuel (a + 1)
          (sleeps ++ [((retryAfter.getD 60 : Nat) : ℚ)])
      else if 500 ≤ code ∧ a < maxRetries then
        -- lines 156-161: retry server errors while attempts remain
        mkReqLoop env method endpoint maxRetries fuel (a + 1) sleeps
      else
        ⟨a + 1, sleeps, .err (httpErrorMsg method endpoint code detail)⟩
    | .timeout e =>
      if a = maxRetries then
        ⟨a + 1, sleeps, .err ("Request timed out after " ++ Nat.repr (maxRetries + 1) ++ " attempts: " ++ e)⟩
      else mkReqLoop env method endpoint maxRetries fuel (a + 1) sleeps
    | .connError e =>
      if a = maxRetries then
        ⟨a + 1, sleeps, .err ("Connection failed after " ++ Nat.repr (maxRetries + 1) ++ " attempts: " ++ e)⟩
      else mkReqLoop env method endpoint maxRetries fuel (a + 1) sleeps
    | .netError e =>
      if a = maxRetries then
        ⟨a + 1, sleeps, .err ("Network error after " ++ Nat.repr (maxRetries + 1) ++ " attempts: " ++ e)⟩
      else mkReqLoop env method endpoint maxRetries fuel (a + 1) sleeps

/-- `_make_request` with retry budget `maxRetries` (Python default 3). -/
def make_request (env : Nat → Outcome) (method endpoint : String) (maxRetries : Nat) : RunResult :=
  mkReqLoop env method endpoint maxRetries (maxRetries + 1) 0 []

/-! ## Substring containment (Python `in` on strings) -/

/-- Whether `needle` is a prefix of `hay` (character lists). -/
def startsWithChars : List Char → List Char → Bool
  | [], _ => true
  | _ :: _, [] => false
  | a :: as, b :: bs => a = b && startsWithChars as bs

/-- Whether `needle` occurs contiguously in `hay`; Python `needle in hay`. -/
def containsChars (needle : List Char) : List Char → Bool
  | [] => startsWithChars needle []
  | b :: bs => startsWithChars needle (b :: bs) || containsChars needle bs

/-! ## `export_page` (source lines 256-336)

The poll loop is driven by `env : Nat → PollOutcome`: `env attempt` is what the
`GET` of the status endpoint at the given poll attempt produces —
`PollOutcome.ok status downloadLink error` for a successful request returning
these JSON fields, `PollOutcome.err msg` for a raised `CodaAPIError`. -/

inductive PollOutcome where
  | ok (status : String) (downloadLink : Option String) (error : Option String)
  | err (msg : String)
deriving DecidableEq, Repr

inductive PollFinal where
  | complete (downloadUrl : String)
  /-- the loop raised a `CodaAPIError` with this message -/
  | apiError (msg : String)
  /-- Python would raise `KeyError`: status `complete` without `downloadLink` -/
  | badComplete
deriving DecidableEq, Repr

structure PollResult where
  polls : Nat
  sleeps : List ℚ
  /-- successive values taken by the `consecutive_failures` variable at the end
  of each non-final loop iteration (ghost instrumentation) -/
  cfTrace : List Nat
  final : PollFinal
deriving DecidableEq, Repr

/-- The job-failure message of source lines 290-291: the error field of the
status response, defaulting to the text "Unknown error" when absent. -/
def jobFailedMsg (error : Option String) : String :=
  "Page export failed: " ++ error.getD "Unknown error"

/-- The message raised at source line 306. -/
def tooManyMsg (cf : Nat) (pageId msg : String) : String :=
  "Too many consecutive failures (" ++ Nat.repr cf ++ ") polling page export " ++ pageId ++ ": " ++ msg

/-- The message raised at source line 314 (`for`/`else` after the poll loop). -/
def pollTimeoutMsg (maxAttempts : Nat) : String :=
  "Page export timed out after " ++ Nat.repr (maxAttempts * 3) ++ " seconds"

/-- `"404" in str(e)` at source line 300. -/
def mentions404 (msg : String) : Bool :=
  containsChars "404".toList msg.toList

/-- What one iteration of the poll loop decides to do. -/
inductive StepAct where
  /-- leave the loop: `break` (complete) or an uncaught `raise` -/
  | finish (f : PollFinal)
  /-- next iteration with this `consecutive_failures` value after this
  `time.sleep` duration (the normal fall-through sleeps 3 s, the exception
  handler sleeps 5 s) -/
  | next (cf : Nat) (sleep : ℚ)
deriving DecidableEq, Repr

/-- The `except CodaAPIError` handler (source lines 297-310).  `cfNew` is the
value of `consecutive_failures` after the `+= 1` at line 298. -/
def pollCatch (attempt cfNew : Nat) (pageId msg : String) : StepAct :=
  if mentions404 msg && decide (attempt < 5) then
    -- line 300-304: early-404 grace period, longer wait, no cap check
    .next cfNew 5
  else if 3 ≤ cfNew then
    -- line 305-306: consecutive-failure cap
    .finish (.apiError (tooManyMsg cfNew pageId msg))
  else
    -- line 307-310: warn, wait longer, retry
    .next cfNew 5

/-- One iteration of the poll loop body (source lines 277-312).  `cf` is the
value of `consecutive_failures` on entry. -/
def pollStep (attempt cf : Nat) (pageId : String) (o : PollOutcome) : StepAct :=
  match o with
  | .ok status dl er =>
    -- line 283: a successful GET resets consecutive_failures to 0
    if status = "complete" then
      match dl with
      | some u => .finish (.complete u)
      | none => .finish .badComplete
    else if status = "failed" then
      -- line 291: this raise happens INSIDE the try, so the except clause
      -- below it catches it; the handler sees consecutive_failures = 0 + 1
      pollCatch attempt (0 + 1) pageId (jobFailedMsg er)
    else
      -- non-terminal status: fall through to time.sleep(3) at line 312
      .next 0 3
  | .err msg => pollCatch attempt (cf + 1) pageId msg

/-- The poll loop (source lines 277-314).  `fuel` is the number of remaining
iterations (initially `maxAttempts = 40`); running out of fuel is the
`for`/`else` timeout branch. -/
def pollLoop (env : Nat → PollOutcome) (pageId : String) (maxAttempts : Nat) :
    Nat → Nat → Nat → List ℚ → List Nat → PollResult
  | 0, attempt, _, sleeps, trace => ⟨attempt, sleeps, trace, .apiError (pollTimeoutMsg maxAttempts)⟩
  | fuel+1, attempt, cf, sleeps, trace =>
    match pollStep attempt cf pageId (env attempt) with
    | .finish f => ⟨attempt + 1, sleeps, trace, f⟩
    | .next cf2 d => pollLoop env pageId maxAttempts fuel (attempt + 1) cf2 (sleeps ++ [d]) (trace ++ [cf2])

/-- Outcome of one `requests.get(download_url, ...)` in the download step. -/
inductive DlOutcome where
  | ok (text : String)
  | timeout (e : String)
  | netError (e : String)
deriving DecidableEq, Repr

structure DlResult where
  calls : Nat
  sleeps : List ℚ
  result : ReqOut
deriving DecidableEq, Repr

/-- The download retry loop (source lines 316-336); `max_download_retries = 3`,
`da` is `download_attempt`. -/
def downloadLoop (env : Nat → DlOutcome) : Nat → Nat → List ℚ → DlResult
  | 0, da, sleeps => ⟨da, sleeps, .err "unreachable: download loop exhausted"⟩
  | fuel+1, da, sleeps =>
    match env da with
    | .ok text => ⟨da + 1, sleeps, .body text⟩
    | .timeout e =>
      if da < 3 - 1 then downloadLoop env fuel (da + 1) (sleeps ++ [((2 : ℚ) ^ da)])
      else ⟨da + 1, sleeps, .err ("Download timed out after " ++ Nat.repr 3 ++ " attempts: " ++ e)⟩
    | .netError e =>
      if da < 3 - 1 then downloadLoop env fuel (da + 1) (sleeps ++ [((2 : ℚ) ^ da)])
      else ⟨da + 1, sleeps, .err ("Download failed after " ++ Nat.repr 3 ++ " attempts: " ++ e)⟩

structure ExportResult where
  polls : Nat
  downloadCalls : Nat
  outcome : ReqOut
deriving DecidableEq, Repr

/-- `export_page` (source lines 256-336): submit, poll (40 attempts), then
download (3 attempts).  `submit` is the result of the initiating POST; a
failed submit propagates its error before any polling.  The status endpoint
GETs are given by `pollEnv`, the download GETs by `dlEnv`. -/
def export_page (submit : ReqOut) (pollEnv : Nat → PollOutcome) (dlEnv : Nat → DlOutcome)
    (pageId : String) : ExportResult :=
  match submit with
  | .err m => ⟨0, 0, .err m⟩
  | .body _ =>
    match pollLoop pollEnv pageId 40 40 0 0 [] [] with
    | ⟨p, _, _, .complete _⟩ =>
      let d := downloadLoop dlEnv 3 0 []
      ⟨p, d.calls, d.result⟩
    | ⟨p, _, _, .apiError m⟩ => ⟨p, 0, .err m⟩
    | ⟨p, _, _, .badComplete⟩ => ⟨p, 0, .err "KeyError: downloadLink"⟩

/-! ## `paginate` (source lines 192-217)

The server is a function from the cursor sent (`none` on the first call, the
previous `nextPageToken` afterwards) to the page it returns: its items and its
optional `nextPageToken`.  A token that is `none` or `""` (both falsy in
Python) ends the iteration. -/

structure PagResult (α : Type) where
  fetches : Nat
  yielded : List α
  /-- `false` when the fuel ran out before the server omitted a token -/
  finished : Bool
deriving DecidableEq, Repr

def paginateAux {α : Type} (fetch : Option String → List α × Option String) :
    Nat → Option String → PagResult α
  | 0, _ => ⟨0, [], false⟩
  | fuel+1, cur =>
    match fetch cur with
    | (items, none) => ⟨1, items, true⟩
    | (items, some t) =>
      if t = "" then ⟨1, items, true⟩
      else
        let r := paginateAux fetch fuel (some t)
        ⟨r.fetches + 1, items ++ r.yielded, r.finished⟩

def paginate {α : Type} (fetch : Option String → List α × Option String) (fuel : Nat) :
    PagResult α :=
  paginateAux fetch fuel none

/-- The hypothesis of the pagination claim: starting from cursor `cur` the
server serves exactly the given page sequence, each page but the last carrying
a non-empty `nextPageToken` that the next fetch presents verbatim, the last
carrying none. -/
def ServesChain {α : Type} (fetch : Option String → List α × Option String) :
    Option String → List (List α) → Prop
  | _, [] => False
  | cur, [items] => fetch cur = (items, none)
  | cur, items :: p :: rest =>
    ∃ t : String, t ≠ "" ∧ fetch cur = (items, some t) ∧ ServesChain fetch (some t) (p :: rest)

/-! ## Claim theorems -/

/-- C1: the claim is violated by the code (code bug).  When a status poll
returns `status == "failed"`, the `raise CodaAPIError("Page export failed: ...")`
at source line 291 sits inside the `try` whose `except CodaAPIError` clause
(line 297) catches it.  The job failure is therefore treated like a transport
poll failure — the consecutive-failure counter becomes 1, the loop sleeps 5 s
and polls again — and, with the status stuck at `failed`, `export_page` keeps
polling all 40 attempts and resolves to the poll-timeout error, not to the
job-failure error.  Evaluated here on a job whose every status poll returns
`status = "failed", error = "boom"`: 40 polls are made (not 1), every
iteration leaves the counter at 1 (reset by the successful GET, then bumped by
the caught raise), and the outcome is the timeout message. -/
theorem c1_failed_status_swallowed :
    export_page (.body "submitted") (fun _ => .ok "failed" none (some "boom")) (fun _ => .ok "x")
      "page1"
      = ⟨40, 0, .err "Page export timed out after 120 seconds"⟩ ∧
    (pollLoop (fun _ => .ok "failed" none (some "boom")) "page1" 40 40 0 0 [] []).cfTrace
      = List.replicate 40 1 ∧
    (pollLoop (fun _ => .ok "failed" none (some "boom")) "page1" 40 40 0 0 [] []).final
      ≠ .apiError (jobFailedMsg (some "boom")) := by
  refine ⟨by decide, by decide, by decide⟩

/-- C2: the claim is violated by the code (code bug).  On an HTTP 429 the code
sleeps for the `Retry-After` value and then executes `continue` — but
`continue` advances the surrounding `for attempt in range(...)` loop, so
(contrary to the comment `# Retry this attempt` at source line 119 and to the
spec) the 429 consumes one of the `max_retries + 1` attempts AND the next
iteration additionally sleeps the exponential backoff `2 ** attempt`.
Evaluated here: a 429 with `Retry-After: 5` on the first call is followed by
sleeps of 5 s and 2 s (not exactly 5 s) before the second call; and a server
answering 429 on every call exhausts all 4 attempts of the default budget and
raises the max-retries-exceeded error instead of retrying without consuming
attempts. -/
theorem c2_rate_limit_consumes_attempt :
    make_request (fun k => if k = 0 then .httpError 429 (some 5) none else .success true "ok")
      "GET" "/docs" 3 = ⟨2, [(5 : ℚ), 2, mkRat 1 10], .body "ok"⟩ ∧
    make_request (fun _ => .httpError 429 (some 5) none) "GET" "/docs" 3
      = ⟨4, [(5 : ℚ), 2, 5, 4, 5, 8, 5], .err "Unexpected error: max retries exceeded for GET /docs"⟩ := by
  refine ⟨by decide, by decide⟩

/-- C3, counterexample to the claim as stated.  The claim says an early 404
poll failure does not advance the consecutive-failure counter.  In the code,
`consecutive_failures += 1` (source line 298) runs BEFORE the early-404 test
at line 300; the grace branch only skips the cap check of that iteration.
First conjunct: after a single early 404 the counter is 1, not 0 (the trace
records the counter value at the end of each iteration).  Second conjunct: an
early 404 followed by two non-404 failures aborts with the cap error
`Too many consecutive failures (3)` after only 3 polls — under the claim the
counter would be 2 and polling would continue. -/
theorem c3_counterexample :
    (pollLoop
      (fun a => if a = 0 then .err "HTTP 404 error for GET /status - Resource not found"
                else .ok "inProgress" none none)
      "page1" 40 40 0 0 [] []).cfTrace.head? = some 1 ∧
    pollLoop
      (fun a => if a = 0 then .err "HTTP 404 error for GET /status - Resource not found"
                else .err "HTTP 503 error for GET /status - Server error (try again later)")
      "page1" 40 40 0 0 [] []
      = ⟨3, [(5 : ℚ), 5], [1, 2],
          .apiError (tooManyMsg 3 "page1"
            "HTTP 503 error for GET /status - Server error (try again later)")⟩ := by
  refine ⟨by decide, by decide⟩

/-- C3, amended: a poll failure whose error mentions 404 at an attempt index
below 5 is treated as transient — the poll is retried after a 5-second wait
and the consecutive-failure cap is NOT checked in that iteration (even when
the counter already meets the cap) — but the failure DOES advance the
consecutive-failure counter, so it counts toward the cap for subsequent
failures. -/
theorem c3_early404_grace (env : Nat → PollOutcome) (pid : String) (maxA fuel a cf : Nat)
    (s : List ℚ) (tr : List Nat) (msg : String)
    (h : env a = .err msg) (h404 : mentions404 msg = true) (ha : a < 5) :
    pollLoop env pid maxA (fuel + 1) a cf s tr
      = pollLoop env pid maxA fuel (a + 1) (cf + 1) (s ++ [(5 : ℚ)]) (tr ++ [cf + 1]) := by
  simp [pollLoop, pollStep, pollCatch, h, h404, ha]

/-- Concrete instance of `c3_early404_grace`: a 404 poll failure at attempt 0
with counter 0 leads to the next iteration with counter 1 after a 5-second
sleep. -/
theorem c3_early404_grace_witness :
    pollLoop (fun _ => .err "HTTP 404 e") "p" 40 6 0 0 [] []
      = pollLoop (fun _ => .err "HTTP 404 e") "p" 40 5 1 1 [(5 : ℚ)] [1] :=
  c3_early404_grace (fun _ => .err "HTTP 404 e") "p" 40 5 0 0 [] [] "HTTP 404 e" rfl
    (by decide) (by decide)

/-- Appending on the right does not change a known first character. -/
theorem headDataAppendSome (s x : String) (c : Char) (h : s.data.head? = some c) :
    (s ++ x).data.head? = some c := by
  rw [String.data_append, List.head?_append_of_ne_nil]
  · exact h
  · intro hn
    rw [hn] at h
    cases h

/-- The cap-exceeded message starts with the letter T. -/
theorem tooManyMsg_head (cf : Nat) (pid msg : String) :
    (tooManyMsg cf pid msg).data.head? = some 'T' := by
  unfold tooManyMsg
  exact headDataAppendSome _ _ _ (headDataAppendSome _ _ _ (headDataAppendSome _ _ _
    (headDataAppendSome _ _ _ (headDataAppendSome _ _ _ (by decide)))))

/-- The job-failure message starts with the letter P. -/
theorem jobFailedMsg_head (er : Option String) : (jobFailedMsg er).data.head? = some 'P' := by
  unfold jobFailedMsg
  exact headDataAppendSome _ _ _ (by decide)

/-- The transport-style cap error and the job-failure error are distinct
messages (different first characters). -/
theorem tooManyMsg_ne_jobFailedMsg (cf : Nat) (pid msg : String) (er : Option String) :
    tooManyMsg cf pid msg ≠ jobFailedMsg er := by
  intro h
  have h2 := congrArg (fun s => s.data.head?) h
  simp only [tooManyMsg_head, jobFailedMsg_head] at h2
  cases h2

/-- C8: during the poll loop of `export_page`, (i) a poll failure outside the
early-404 grace case, with the incremented counter still below the cap of 3,
advances the consecutive-failure counter and retries the poll after a
5-second wait; (ii) as soon as the incremented counter reaches the cap, the
loop aborts with the `Too many consecutive failures` transport error, which is
distinct from the job-failure error; (iii) a successful poll returning a
non-terminal status resets the counter to zero (and falls through to the
ordinary 3-second inter-poll sleep). -/
theorem c8_consecutive_failures (env : Nat → PollOutcome) (pid : String)
    (maxA fuel a cf : Nat) (s : List ℚ) (tr : List Nat) (msg st : String)
    (dl er : Option String) :
    (env a = .err msg → ¬(mentions404 msg = true ∧ a < 5) → cf + 1 < 3 →
      pollLoop env pid maxA (fuel + 1) a cf s tr
        = pollLoop env pid maxA fuel (a + 1) (cf + 1) (s ++ [(5 : ℚ)]) (tr ++ [cf + 1])) ∧
    (env a = .err msg → ¬(mentions404 msg = true ∧ a < 5) → 3 ≤ cf + 1 →
      pollLoop env pid maxA (fuel + 1) a cf s tr
        = ⟨a + 1, s, tr, .apiError (tooManyMsg (cf + 1) pid msg)⟩ ∧
      tooManyMsg (cf + 1) pid msg ≠ jobFailedMsg er) ∧
    (env a = .ok st dl er → st ≠ "complete" → st ≠ "failed" →
      pollLoop env pid maxA (fuel + 1) a cf s tr
        = pollLoop env pid maxA fuel (a + 1) 0 (s ++ [(3 : ℚ)]) (tr ++ [0])) := by
  refine ⟨fun h hng hcf => ?_, fun h hng hcf => ?_, fun h h1 h2 => ?_⟩
  · have hb : (mentions404 msg && decide (a < 5)) = false := by
      cases h404 : mentions404 msg with
      | false => simp
      | true => simp [show ¬(a < 5) from fun hlt => hng ⟨h404, hlt⟩]
    have hle : ¬(3 ≤ cf + 1) := by omega
    simp [pollLoop, pollStep, pollCatch, h, hb, hle]
  · have hb : (mentions404 msg && decide (a < 5)) = false := by
      cases h404 : mentions404 msg with
      | false => simp
      | true => simp [show ¬(a < 5) from fun hlt => hng ⟨h404, hlt⟩]
    refine ⟨?_, tooManyMsg_ne_jobFailedMsg _ _ _ _⟩
    simp [pollLoop, pollStep, pollCatch, h, hb, hcf]
  · simp [pollLoop, pollStep, h, h1, h2]

/-- Concrete instances of `c8_consecutive_failures`: (i) a non-404 failure at
counter 0 continues with counter 1 after a 5-second sleep; (ii) a non-404
failure at counter 2 aborts with the cap message, distinct from the
job-failure message; (iii) an `inProgress` poll at counter 2 resets the
counter to 0. -/
theorem c8_consecutive_failures_witness :
    (pollLoop (fun _ => .err "boom") "p" 40 4 0 0 [] []
      = pollLoop (fun _ => .err "boom") "p" 40 3 1 1 [(5 : ℚ)] [1]) ∧
    (pollLoop (fun _ => .err "boom") "p" 40 4 0 2 [] []
      = ⟨1, [], [], .apiError (tooManyMsg 3 "p" "boom")⟩ ∧
      tooManyMsg 3 "p" "boom" ≠ jobFailedMsg (some "x")) ∧
    (pollLoop (fun _ => .ok "inProgress" none (some "x")) "p" 40 4 0 2 [] []
      = pollLoop (fun _ => .ok "inProgress" none (some "x")) "p" 40 3 1 0 [(3 : ℚ)] [0]) :=
  ⟨(c8_consecutive_failures (fun _ => .err "boom") "p" 40 3 0 0 [] [] "boom" "inProgress"
      none (some "x")).1 rfl (by decide) (by decide),
   (c8_consecutive_failures (fun _ => .err "boom") "p" 40 3 0 2 [] [] "boom" "inProgress"
      none (some "x")).2.1 rfl (by decide) (by decide),
   (c8_consecutive_failures (fun _ => .ok "inProgress" none (some "x")) "p" 40 3 0 2 [] []
      "boom" "inProgress" none (some "x")).2.2 rfl (by decide) (by decide)⟩

/-- If every poll in the remaining window succeeds with a non-terminal status,
the loop runs to exhaustion and raises the poll-timeout error, sleeping 3 s
per iteration and keeping the consecutive-failure counter at 0. -/
theorem pollLoop_nonterminal (env : Nat → PollOutcome) (pid : String) (maxA : Nat) :
    ∀ (fuel a cf : Nat) (s : List ℚ) (tr : List Nat),
    (∀ t, a ≤ t → t < a + fuel →
      ∃ st dl er, env t = .ok st dl er ∧ st ≠ "complete" ∧ st ≠ "failed") →
    pollLoop env pid maxA fuel a cf s tr
      = ⟨a + fuel, s ++ List.replicate fuel (3 : ℚ), tr ++ List.replicate fuel 0,
          .apiError (pollTimeoutMsg maxA)⟩ := by
  intro fuel
  induction fuel with
  | zero => intro a cf s tr _; simp [pollLoop]
  | succ fuel ih =>
    intro a cf s tr henv
    obtain ⟨st, dl, er, h, h1, h2⟩ := henv a (Nat.le_refl a) (by omega)
    have hstep : pollLoop env pid maxA (fuel + 1) a cf s tr
        = pollLoop env pid maxA fuel (a + 1) 0 (s ++ [(3 : ℚ)]) (tr ++ [0]) := by
      simp [pollLoop, pollStep, h, h1, h2]
    rw [hstep, ih (a + 1) 0 (s ++ [(3 : ℚ)]) (tr ++ [0])
      (fun t ht1 ht2 => henv t (by omega) (by omega))]
    simp [List.replicate_succ, List.append_assoc]
    omega

/-- C7: an export job whose status polls all succeed but never return a
terminal status within the 40 poll attempts makes `export_page` resolve to the
poll-timeout `CodaAPIError` (reporting the 40 × 3 s = 120 s budget), with no
download attempt made. -/
theorem c7_poll_timeout (env : Nat → PollOutcome) (dlEnv : Nat → DlOutcome)
    (pid b : String)
    (h : ∀ t, t < 40 → ∃ st dl er, env t = .ok st dl er ∧ st ≠ "complete" ∧ st ≠ "failed") :
    export_page (.body b) env dlEnv pid = ⟨40, 0, .err (pollTimeoutMsg 40)⟩ ∧
    pollTimeoutMsg 40 = "Page export timed out after 120 seconds" := by
  have hp := pollLoop_nonterminal env pid 40 40 0 0 [] [] (fun t ht1 ht2 => h t (by omega))
  refine ⟨?_, by decide⟩
  simp [export_page, hp]

/-- Concrete instance of `c7_poll_timeout`: a job stuck at `inProgress`. -/
theorem c7_poll_timeout_witness :
    export_page (.body "s") (fun _ => .ok "inProgress" none none) (fun _ => .ok "x") "p"
      = ⟨40, 0, .err (pollTimeoutMsg 40)⟩ ∧
    pollTimeoutMsg 40 = "Page export timed out after 120 seconds" :=
  c7_poll_timeout (fun _ => .ok "inProgress" none none) (fun _ => .ok "x") "p" "s"
    (fun t _ => ⟨"inProgress", none, none, rfl, by decide, by decide⟩)

/-- Helper for the backoff-schedule claim: from any attempt `a ≥ 1` on, if the
server keeps answering 5xx until attempt `maxRetries`, which succeeds, the
loop sleeps `2 ^ k` before each attempt `k = a .. maxRetries` and returns the
successful body. -/
theorem mkReqLoop_5xx_run (env : Nat → Outcome) (me ep : String) (m : Nat) :
    ∀ (j a : Nat) (s : List ℚ), 1 ≤ a → a + j = m →
    (∀ k, a ≤ k → k < m → ∃ c ra d, 500 ≤ c ∧ env k = .httpError c ra d) →
    ∀ (isJ : Bool) (b : String), env m = .success isJ b →
    mkReqLoop env me ep m (j + 1) a s
      = ⟨m + 1, s ++ (List.range' a (j + 1)).map (fun k => (2 : ℚ) ^ k) ++ [mkRat 1 10],
          .body b⟩ := by
  intro j
  induction j with
  | zero =>
    intro a s ha1 ham _ isJ b hs
    have ham' : a = m := by omega
    subst ham'
    simp [mkReqLoop, hs, Nat.lt_of_lt_of_le Nat.zero_lt_one ha1, List.range'_succ]
  | succ j ih =>
    intro a s ha1 ham henv isJ b hs
    obtain ⟨c, ra, d, hc, hk⟩ := henv a (Nat.le_refl a) (by omega)
    have hc429 : ¬(c = 429) := by omega
    have hstep : mkReqLoop env me ep m (j + 1 + 1) a s
        = mkReqLoop env me ep m (j + 1) (a + 1) (s ++ [(2 : ℚ) ^ a]) := by
      simp [mkReqLoop, hk, hc429, hc, Nat.lt_of_lt_of_le Nat.zero_lt_one ha1,
        show a < m by omega]
    rw [hstep, ih (a + 1) (s ++ [(2 : ℚ) ^ a]) (by omega) (by omega)
      (fun k hk1 hk2 => henv k (by omega) hk2) isJ b hs]
    simp [List.range'_succ, List.append_assoc]

/-- C4: with retry budget `m`, an endpoint that answers an HTTP 5xx server
error on every call before the last allowed attempt and succeeds on attempt
`n = m + 1` makes `_make_request` return the successful body after exactly
`n` HTTP calls, with a backoff sleep of `2 ^ k` seconds before the `k`-th
retry for `k = 1 .. n - 1` (followed by the fixed 0.1-second post-success
delay). -/
theorem c4_backoff_schedule (env : Nat → Outcome) (me ep : String) (m : Nat)
    (isJ : Bool) (b : String)
    (h5 : ∀ k, k < m → ∃ c ra d, 500 ≤ c ∧ env k = .httpError c ra d)
    (hs : env m = .success isJ b) :
    make_request env me ep m
      = ⟨m + 1, (List.range' 1 m).map (fun k => (2 : ℚ) ^ k) ++ [mkRat 1 10], .body b⟩ := by
  cases m with
  | zero => simp [make_request, mkReqLoop, hs]
  | succ M =>
    obtain ⟨c, ra, d, hc, hk⟩ := h5 0 (Nat.succ_pos M)
    have hc429 : ¬(c = 429) := by omega
    have hstep : make_request env me ep (M + 1)
        = mkReqLoop env me ep (M + 1) (M + 1) 1 [] := by
      simp [make_request, mkReqLoop, hk, hc429, hc]
    rw [hstep]
    have := mkReqLoop_5xx_run env me ep (M + 1) M 1 [] (Nat.le_refl 1) (by omega)
      (fun k hk1 hk2 => h5 k hk2) isJ b hs
    simpa using this

/-- Concrete instance of `c4_backoff_schedule`: budget 3 attempts (m = 2),
500 on the first two calls, success on the third; sleeps are 2 and 4 seconds
then the 0.1-second post-success delay. -/
theorem c4_backoff_schedule_witness :
    make_request (fun k => if k < 2 then .httpError 500 none none else .success true "ok")
      "GET" "/docs" 2
      = ⟨3, (List.range' 1 2).map (fun k => (2 : ℚ) ^ k) ++ [mkRat 1 10], .body "ok"⟩ :=
  c4_backoff_schedule (fun k => if k < 2 then .httpError 500 none none else .success true "ok")
    "GET" "/docs" 2 true "ok"
    (fun k hk => ⟨500, none, none, by omega, by simp [hk]⟩) rfl

/-- If the suffix chosen by `httpErrorMsg` for `code` is `" - " ++ r`, then the
built message contains the reason text `r` (exhibited by an explicit
prefix/suffix decomposition). -/
theorem httpErrorMsg_contains (me ep : String) (code : Nat) (d : Option String) (r : String)
    (h : (if code = 401 then " - Invalid API token"
          else if code = 403 then " - Access forbidden (check permissions)"
          else if code = 404 then " - Resource not found"
          else if 500 ≤ code then " - Server error (try again later)"
          else "") = " - " ++ r) :
    ∃ pre post, httpErrorMsg me ep code d = pre ++ (r ++ post) := by
  cases d with
  | none =>
    refine ⟨"HTTP " ++ (Nat.repr code ++ (" error for " ++ (me ++ (" " ++ (ep ++ " - "))))),
      "", ?_⟩
    simp [httpErrorMsg, h, String.append_assoc, String.append_empty]
  | some m =>
    refine ⟨"HTTP " ++ (Nat.repr code ++ (" error for " ++ (me ++ (" " ++ (ep ++ " - "))))),
      ": " ++ m, ?_⟩
    simp [httpErrorMsg, h, String.append_assoc]

/-- C5: a non-429 4xx response makes `_make_request` abort immediately: the
attempt that observes it is the last one (no retry, whatever fuel remains),
and the raised `CodaAPIError` carries the message built by `httpErrorMsg`,
which for 401, 403 and 404 contains the concrete reason text. -/
theorem c5_fatal_4xx (env : Nat → Outcome) (me ep : String) (maxR fuel a : Nat)
    (s : List ℚ) (code : Nat) (ra : Option Nat) (d : Option String)
    (h : env a = .httpError code ra d) (h400 : 400 ≤ code) (h500 : code < 500)
    (h429 : code ≠ 429) :
    mkReqLoop env me ep maxR (fuel + 1) a s
      = ⟨a + 1, if 0 < a then s ++ [(2 : ℚ) ^ a] else s, .err (httpErrorMsg me ep code d)⟩ ∧
    (code = 401 → ∃ pre post, httpErrorMsg me ep code d = pre ++ ("Invalid API token" ++ post)) ∧
    (code = 403 → ∃ pre post,
      httpErrorMsg me ep code d = pre ++ ("Access forbidden (check permissions)" ++ post)) ∧
    (code = 404 → ∃ pre post,
      httpErrorMsg me ep code d = pre ++ ("Resource not found" ++ post)) := by
  refine ⟨?_, fun hc => ?_, fun hc => ?_, fun hc => ?_⟩
  · have hns : ¬(500 ≤ code ∧ a < maxR) := fun hx => by omega
    simp [mkReqLoop, h, h429, hns]
  · subst hc
    exact httpErrorMsg_contains me ep 401 d "Invalid API token" (by decide)
  · subst hc
    exact httpErrorMsg_contains me ep 403 d "Access forbidden (check permissions)" (by decide)
  · subst hc
    exact httpErrorMsg_contains me ep 404 d "Resource not found" (by decide)

/-- Concrete instance of `c5_fatal_4xx`: a 401 on the first call with full
fuel available aborts after that single call with the invalid-token reason. -/
theorem c5_fatal_4xx_witness :
    (mkReqLoop (fun _ => .httpError 401 none none) "GET" "/whoami" 3 4 0 []
      = ⟨1, [], .err (httpErrorMsg "GET" "/whoami" 401 none)⟩) ∧
    (∃ pre post,
      httpErrorMsg "GET" "/whoami" 401 none = pre ++ ("Invalid API token" ++ post)) := by
  have h := c5_fatal_4xx (fun _ => .httpError 401 none none) "GET" "/whoami" 3 3 0 []
    401 none none rfl (by omega) (by omega) (by omega)
  exact ⟨by simpa using h.1, h.2.1 rfl⟩

/-- The retry loop performs at most `fuel` further HTTP calls: the `calls`
field of the result never exceeds the current attempt index plus the
remaining iterations. -/
theorem mkReqLoop_calls_le (env : Nat → Outcome) (me ep : String) (mr : Nat) :
    ∀ (fuel a : Nat) (s : List ℚ), (mkReqLoop env me ep mr fuel a s).calls ≤ a + fuel := by
  intro fuel
  induction fuel with
  | zero => intro a s; simp [mkReqLoop]
  | succ fuel ih =>
    intro a s
    simp only [mkReqLoop]
    cases env a with
    | success isJ b => simp
    | httpError c ra d =>
      dsimp only
      split
      · exact le_trans (ih (a + 1) _) (by omega)
      · split
        · exact le_trans (ih (a + 1) _) (by omega)
        · simp
    | timeout e =>
      dsimp only
      split
      · simp
      · exact le_trans (ih (a + 1) _) (by omega)
    | connError e =>
      dsimp only
      split
      · simp
      · exact le_trans (ih (a + 1) _) (by omega)
    | netError e =>
      dsimp only
      split
      · simp
      · exact le_trans (ih (a + 1) _) (by omega)

/-- An endpoint answering 429 on every call drives the loop through all its
remaining iterations (each 429 consumes one attempt) and ends in the
max-retries-exceeded error. -/
theorem mkReqLoop_all429 (env : Nat → Outcome) (me ep : String) (mr : Nat)
    (h : ∀ k, ∃ ra d, env k = .httpError 429 ra d) :
    ∀ (fuel a : Nat) (s : List ℚ), ∃ sl, mkReqLoop env me ep mr fuel a s
      = ⟨a + fuel, sl, .err ("Unexpected error: max retries exceeded for " ++ me ++ " " ++ ep)⟩ := by
  intro fuel
  induction fuel with
  | zero => intro a s; exact ⟨s, by simp [mkReqLoop]⟩
  | succ fuel ih =>
    intro a s
    obtain ⟨ra, d, hk⟩ := h a
    obtain ⟨sl, hsl⟩ := ih (a + 1)
      ((if 0 < a then s ++ [(2 : ℚ) ^ a] else s) ++ [((ra.getD 60 : Nat) : ℚ)])
    refine ⟨sl, ?_⟩
    have hstep : mkReqLoop env me ep mr (fuel + 1) a s
        = mkReqLoop env me ep mr fuel (a + 1)
            ((if 0 < a then s ++ [(2 : ℚ) ^ a] else s) ++ [((ra.getD 60 : Nat) : ℚ)]) := by
      simp [mkReqLoop, hk]
    rw [hstep, hsl]
    congr 1
    omega

/-- C10: whatever the sequence of HTTP outcomes, `_make_request` with budget
`m` makes at most `m + 1` HTTP calls before returning a body or an error; in
particular an endpoint that answers 429 on every call does not loop
unboundedly — each 429 consumes one of the `m + 1` attempts and exhausting
them raises the max-retries-exceeded error. -/
theorem c10_bounded_attempts (env : Nat → Outcome) (me ep : String) (m : Nat) :
    (make_request env me ep m).calls ≤ m + 1 ∧
    ((∀ k, ∃ ra d, env k = .httpError 429 ra d) →
      ∃ sl, make_request env me ep m
        = ⟨m + 1, sl, .err ("Unexpected error: max retries exceeded for " ++ me ++ " " ++ ep)⟩) := by
  constructor
  · simpa using mkReqLoop_calls_le env me ep m (m + 1) 0 []
  · intro h
    simpa using mkReqLoop_all429 env me ep m h (m + 1) 0 []

/-- Concrete instance of `c10_bounded_attempts` with budget 1 and an
always-429 endpoint: exactly 2 calls, then the max-retries-exceeded error. -/
theorem c10_bounded_attempts_witness :
    (make_request (fun _ => .httpError 429 none none) "GET" "/x" 1).calls ≤ 2 ∧
    ∃ sl, make_request (fun _ => .httpError 429 none none) "GET" "/x" 1
      = ⟨2, sl, .err ("Unexpected error: max retries exceeded for " ++ "GET" ++ " " ++ "/x")⟩ :=
  ⟨(c10_bounded_attempts (fun _ => .httpError 429 none none) "GET" "/x" 1).1,
   (c10_bounded_attempts (fun _ => .httpError 429 none none) "GET" "/x" 1).2
     (fun _ => ⟨none, none, rfl⟩)⟩

/-- Pagination over a served chain, generalized over the starting cursor. -/
theorem paginateAux_chain {α : Type} (fetch : Option String → List α × Option String) :
    ∀ (pages : List (List α)) (cur : Option String) (fuel : Nat),
    ServesChain fetch cur pages → pages.length ≤ fuel →
    paginateAux fetch fuel cur = ⟨pages.length, pages.flatten, true⟩ := by
  intro pages
  induction pages with
  | nil => intro cur fuel h _; cases h
  | cons items rest ih =>
    intro cur fuel h hfuel
    cases rest with
    | nil =>
      cases fuel with
      | zero => simp at hfuel
      | succ f =>
        have hf : fetch cur = (items, none) := h
        simp [paginateAux, hf]
    | cons p rest2 =>
      obtain ⟨t, ht, hf, hrest⟩ := h
      cases fuel with
      | zero => simp at hfuel
      | succ f =>
        have hr := ih (some t) f hrest (by simpa using Nat.le_of_succ_le_succ hfuel)
        simp [paginateAux, hf, ht, hr]

/-- C6: if successive fetches serve pages `P1 .. Pk`, the first fetched with
no cursor and each later one fetched with the previous non-empty
`nextPageToken` verbatim, the last lacking a token, then `paginate` yields
exactly the concatenation of the pages' items in served order (no reordering
or deduplication), makes exactly `k` fetches, and terminates after the
token-less page (for any iteration allowance of at least `k`). -/
theorem c6_pagination {α : Type} (fetch : Option String → List α × Option String)
    (pages : List (List α)) (fuel : Nat) (h : ServesChain fetch none pages)
    (hfuel : pages.length ≤ fuel) :
    paginate fetch fuel = ⟨pages.length, pages.flatten, true⟩ :=
  paginateAux_chain fetch pages none fuel h hfuel

/-- Concrete instance of `c6_pagination`: three pages, two carrying tokens. -/
theorem c6_pagination_witness :
    paginate (fun cur =>
      match cur with
      | none => (["a", "b"], some "t1")
      | some "t1" => (["c"], some "t2")
      | some "t2" => (["d"], none)
      | _ => ([], none)) 5
      = ⟨3, ["a", "b", "c", "d"], true⟩ := by
  have h := c6_pagination (fun cur =>
      match cur with
      | none => (["a", "b"], some "t1")
      | some "t1" => (["c"], some "t2")
      | some "t2" => (["d"], none)
      | _ => ([], none)) [["a", "b"], ["c"], ["d"]] 5
    ⟨"t1", by decide, rfl, "t2", by decide, rfl, rfl⟩ (by decide)
  simpa using h

/-- Every character emitted by `collapseRuns` is either the replacement
character or a character of the input that does not satisfy `p`. -/
theorem collapseRuns_mem (p : Char → Bool) (rep : Char) :
    ∀ (l : List Char) (b : Bool) (c : Char), c ∈ collapseRuns p rep b l →
      c = rep ∨ (c ∈ l ∧ p c = false) := by
  intro l
  induction l with
  | nil => intro b c h; simp [collapseRuns] at h
  | cons a t ih =>
    intro b c h
    by_cases hp : p a = true
    · cases b with
      | true =>
        simp only [collapseRuns, hp, if_true] at h
        rcases ih true c h with h1 | ⟨h2, h3⟩
        · exact Or.inl h1
        · exact Or.inr ⟨List.mem_cons_of_mem a h2, h3⟩
      | false =>
        simp only [collapseRuns, hp, if_true] at h
        rcases List.mem_cons.mp h with h1 | h1
        · exact Or.inl h1
        · rcases ih true c h1 with h2 | ⟨h3, h4⟩
          · exact Or.inl h2
          · exact Or.inr ⟨List.mem_cons_of_mem a h3, h4⟩
    · have hp' : p a = false := by simpa using hp
      simp only [collapseRuns, hp', Bool.false_eq_true, if_false] at h
      rcases List.mem_cons.mp h with h1 | h1
      · rw [h1]; exact Or.inr ⟨List.mem_cons_self a t, hp'⟩
      · rcases ih false c h1 with h2 | ⟨h3, h4⟩
        · exact Or.inl h2
        · exact Or.inr ⟨List.mem_cons_of_mem a h3, h4⟩

theorem lstripWhen_subset (p : Char → Bool) (l : List Char) (c : Char)
    (h : c ∈ lstripWhen p l) : c ∈ l :=
  (List.dropWhile_sublist _).subset h

theorem rstripWhen_subset (p : Char → Bool) (l : List Char) (c : Char)
    (h : c ∈ rstripWhen p l) : c ∈ l := by
  unfold rstripWhen at h
  rw [List.mem_reverse] at h
  have h2 := (List.dropWhile_sublist _).subset h
  rwa [List.mem_reverse] at h2

theorem stripWhen_subset (p : Char → Bool) (l : List Char) (c : Char)
    (h : c ∈ stripWhen p l) : c ∈ l :=
  lstripWhen_subset p l c (rstripWhen_subset p _ c h)

/-- The first character surviving `dropWhile` does not satisfy `p`. -/
theorem dropWhile_head_false (p : Char → Bool) :
    ∀ (l : List Char) (c : Char), (l.dropWhile p).head? = some c → p c = false := by
  intro l
  induction l with
  | nil => intro c h; simp at h
  | cons a t ih =>
    intro c h
    by_cases hp : p a = true
    · simp only [List.dropWhile_cons, hp, if_true] at h
      exact ih c h
    · have hp' : p a = false := by simpa using hp
      simp only [List.dropWhile_cons, hp', Bool.false_eq_true, if_false, List.head?_cons,
        Option.some.injEq] at h
      subst h
      exact hp'

/-- The last character kept by `rstripWhen` does not satisfy `p`. -/
theorem rstripWhen_last_false (p : Char → Bool) (l : List Char) (c : Char)
    (h : (rstripWhen p l).getLast? = some c) : p c = false := by
  unfold rstripWhen at h
  rw [List.getLast?_reverse] at h
  exact dropWhile_head_false p _ c h

/-- `rstripWhen` removes a suffix: the input is the output followed by the
stripped run. -/
theorem rstripWhen_append (p : Char → Bool) (l : List Char) :
    rstripWhen p l ++ (l.reverse.takeWhile p).reverse = l := by
  unfold rstripWhen
  rw [← List.reverse_append, List.takeWhile_append_dropWhile, List.reverse_reverse]

theorem rstripWhen_length_le (p : Char → Bool) (l : List Char) :
    (rstripWhen p l).length ≤ l.length := by
  conv_rhs => rw [← rstripWhen_append p l]
  rw [List.length_append]
  omega

/-- `rstripWhen` keeps a head that does not satisfy `p`. -/
theorem rstripWhen_head (p : Char → Bool) (l : List Char) (c : Char)
    (hh : l.head? = some c) (hp : p c = false) :
    (rstripWhen p l).head? = some c := by
  have hd := rstripWhen_append p l
  cases hr : rstripWhen p l with
  | nil =>
    rw [hr, List.nil_append] at hd
    have hc : c ∈ l := List.mem_of_mem_head? (by simp [hh])
    rw [← hd, List.mem_reverse] at hc
    have h2 := List.mem_takeWhile_imp hc
    rw [hp] at h2
    cases h2
  | cons d t =>
    rw [hr] at hd
    have h2 : l.head? = some d := by
      rw [← hd]
      rfl
    rw [hh] at h2
    rw [List.head?_cons]
    exact h2.symm

/-- The first character kept by `stripWhen` does not satisfy `p`. -/
theorem stripWhen_head_false (p : Char → Bool) (l : List Char) (c : Char)
    (h : (stripWhen p l).head? = some c) : p c = false := by
  unfold stripWhen at h
  have hd := rstripWhen_append p (lstripWhen p l)
  cases hr : rstripWhen p (lstripWhen p l) with
  | nil => rw [hr] at h; cases h
  | cons d t =>
    rw [hr] at h hd
    have hld : (List.dropWhile p l).head? = some d := by
      show (lstripWhen p l).head? = some d
      rw [← hd]
      rfl
    have hpd := dropWhile_head_false p l d hld
    simp only [List.head?_cons, Option.some.injEq] at h
    rw [h] at hpd
    exact hpd

/-- The last character kept by `stripWhen` does not satisfy `p`. -/
theorem stripWhen_last_false (p : Char → Bool) (l : List Char) (c : Char)
    (h : (stripWhen p l).getLast? = some c) : p c = false :=
  rstripWhen_last_false p (lstripWhen p l) c h

/-- If the last character of `l` does not satisfy `p`, `rstripWhen` is the
identity. -/
theorem rstripWhen_eq_self (p : Char → Bool) (l : List Char)
    (h : ∀ c, l.getLast? = some c → p c = false) : rstripWhen p l = l := by
  unfold rstripWhen
  cases hr : l.reverse with
  | nil =>
    have : l = [] := by simpa using congrArg List.reverse hr
    simp [this]
  | cons d t =>
    have hd : l.getLast? = some d := by
      rw [← List.head?_reverse, hr, List.head?_cons]
    have hp := h d hd
    rw [List.dropWhile_cons]
    simp only [hp, Bool.false_eq_true, if_false]
    rw [← hr, List.reverse_reverse]

/-- Every character of the sanitation pipeline output is neither a forbidden
filename character, nor whitespace, nor a control character. -/
theorem presan_mem (name : List Char) (c : Char) (h : c ∈ presan name) :
    forbiddenChar c = false ∧ isPythonSpace c = false ∧ isControlChar c = false := by
  simp only [presan] at h
  have h5 := stripWhen_subset _ _ _ h
  rcases collapseRuns_mem _ '_' _ _ c h5 with h4 | ⟨h4, _⟩
  · subst h4; exact ⟨by decide, by decide, by decide⟩
  rcases collapseRuns_mem isPythonSpace '_' _ _ c h4 with h3 | ⟨h3, hsp⟩
  · subst h3; exact ⟨by decide, by decide, by decide⟩
  have h2 := stripWhen_subset _ _ _ h3
  rw [List.mem_filter] at h2
  obtain ⟨h1, hctrl⟩ := h2
  rw [List.mem_map] at h1
  obtain ⟨a, _, hfa⟩ := h1
  have hctrl' : isControlChar c = false := by simpa using hctrl
  by_cases hf : forbiddenChar a = true
  · have hc' : c = '_' := by
      rw [hf] at hfa
      simpa using hfa.symm
    subst hc'
    exact ⟨by decide, by decide, by decide⟩
  · have hf' : forbiddenChar a = false := by simpa using hf
    have hc' : c = a := by
      rw [hf'] at hfa
      simpa using hfa.symm
    subst hc'
    exact ⟨hf', hsp, hctrl'⟩

/-- The pipeline output neither starts nor ends with an underscore. -/
theorem presan_head_last (name : List Char) :
    (∀ c, (presan name).head? = some c → c ≠ '_') ∧
    (∀ c, (presan name).getLast? = some c → c ≠ '_') := by
  constructor
  · intro c hc
    have h := stripWhen_head_false (fun c => c = '_') _ c hc
    simpa using h
  · intro c hc
    have h := stripWhen_last_false (fun c => c = '_') _ c hc
    simpa using h

/-- `take` preserves the head for a positive count. -/
theorem take_head? (l : List Char) (m : Nat) (h : 1 ≤ m) : (l.take m).head? = l.head? := by
  cases l with
  | nil => simp
  | cons a t =>
    cases m with
    | zero => omega
    | succ m => simp

/-- Behavior of the truncation step of source line 45 (take the first
`max_length` characters, then strip trailing underscores) on a non-empty
input whose head is not an underscore. -/
theorem truncate_spec (l : List Char) (m : Nat) (hm : 1 ≤ m)
    (hhead : ∀ c, l.head? = some c → c ≠ '_') (hne : l ≠ []) :
    rstripWhen (fun c => c = '_') (l.take m) ≠ [] ∧
    (rstripWhen (fun c => c = '_') (l.take m)).length ≤ m ∧
    (rstripWhen (fun c => c = '_') (l.take m)).head? = l.head? := by
  cases l with
  | nil => exact absurd rfl hne
  | cons a t =>
    have ha : a ≠ '_' := hhead a rfl
    have ha' : decide (a = '_') = false := by simpa using ha
    have hth : ((a :: t).take m).head? = some a := by rw [take_head? _ m hm]; rfl
    have hh := rstripWhen_head (fun c => c = '_') ((a :: t).take m) a hth ha'
    refine ⟨?_, ?_, ?_⟩
    · intro hnil
      rw [hnil] at hh
      cases hh
    · calc (rstripWhen (fun c => c = '_') ((a :: t).take m)).length
          ≤ ((a :: t).take m).length := rstripWhen_length_le _ _
        _ ≤ m := by simp
    · rw [hh]; rfl

/-- C9, amended: for every input and every `max_length ≥ 1`,
`sanitize_filename` returns a non-empty list of at most `max_length`
characters containing no forbidden filename character, no whitespace and no
control character, neither starting nor ending with an underscore; an input
whose sanitation pipeline comes out empty yields the first `max_length`
characters of `"untitled"` (all of `"untitled"` once `max_length ≥ 8`). -/
theorem c9_sanitize_spec (name : List Char) (m : Nat) (hm : 1 ≤ m) :
    sanitize_filename name m ≠ [] ∧
    (sanitize_filename name m).length ≤ m ∧
    (∀ c ∈ sanitize_filename name m,
      forbiddenChar c = false ∧ isPythonSpace c = false ∧ isControlChar c = false) ∧
    (sanitize_filename name m).head? ≠ some '_' ∧
    (sanitize_filename name m).getLast? ≠ some '_' ∧
    (presan name = [] → sanitize_filename name m = ("untitled".toList).take m) := by
  have huntitled : ∀ c ∈ "untitled".toList,
      forbiddenChar c = false ∧ isPythonSpace c = false ∧ isControlChar c = false := by decide
  have h8 : ("untitled".toList).length = 8 := by decide
  have hni : ('_' : Char) ∉ "untitled".toList := by decide
  by_cases hp : presan name = []
  · -- base is "untitled"
    have hbase : sanitize_filename name m
        = if m < ("untitled".toList).length then
            rstripWhen (fun c => c = '_') (("untitled".toList).take m)
          else "untitled".toList := by
      simp [sanitize_filename, hp]
    have hid : rstripWhen (fun c => c = '_') (("untitled".toList).take m)
        = ("untitled".toList).take m := by
      apply rstripWhen_eq_self
      intro c hc
      have hmem : c ∈ ("untitled".toList).take m :=
        List.mem_of_mem_getLast? (Option.mem_def.mpr hc)
      have hmem2 : c ∈ "untitled".toList := List.take_subset m _ hmem
      by_cases hcu : c = '_'
      · rw [hcu] at hmem2; exact absurd hmem2 hni
      · simpa using hcu
    by_cases htr : m < ("untitled".toList).length
    · rw [hbase, if_pos htr, hid]
      refine ⟨?_, by simp, ?_, ?_, ?_, fun _ => rfl⟩
      · have hlen : 0 < (("untitled".toList).take m).length := by
          rw [List.length_take]
          omega
        exact List.length_pos.mp hlen
      · intro c hc
        exact huntitled c (List.take_subset m _ hc)
      · rw [take_head? _ m hm]
        decide
      · intro hlast
        have hmem : '_' ∈ ("untitled".toList).take m :=
          List.mem_of_mem_getLast? (Option.mem_def.mpr hlast)
        exact absurd (List.take_subset m _ hmem) hni
    · rw [hbase, if_neg htr]
      push_neg at htr
      refine ⟨by decide, by simpa using htr, huntitled, by decide, by decide, fun _ => ?_⟩
      rw [List.take_of_length_le htr]
  · -- base is presan name
    have hbase : sanitize_filename name m
        = if m < (presan name).length then
            rstripWhen (fun c => c = '_') ((presan name).take m)
          else presan name := by
      simp [sanitize_filename, hp]
    obtain ⟨hhd, hlt⟩ := presan_head_last name
    by_cases htr : m < (presan name).length
    · rw [hbase, if_pos htr]
      obtain ⟨hne, hlen, hhead⟩ := truncate_spec (presan name) m hm hhd hp
      refine ⟨hne, hlen, ?_, ?_, ?_, fun h => absurd h hp⟩
      · intro c hc
        exact presan_mem name c
          (List.take_subset m _ (rstripWhen_subset _ _ _ hc))
      · rw [hhead]
        intro hu
        exact hhd '_' hu rfl
      · intro hu
        have h2 := rstripWhen_last_false (fun c => c = '_') ((presan name).take m) '_' hu
        simp at h2
    · rw [hbase, if_neg htr]
      push_neg at htr
      refine ⟨hp, htr, ?_, ?_, ?_, fun h => absurd h hp⟩
      · intro c hc
        exact presan_mem name c hc
      · intro hu
        exact hhd '_' hu rfl
      · intro hu
        exact hlt '_' hu rfl

/-- C9, counterexample to the claim as stated: the claim asserts that an input
which sanitizes to nothing yields the string `untitled` for every
`max_length ≥ 1`, but for `max_length = 3` the `untitled` fallback is then
truncated to `unt` by the length check. -/
theorem c9_counterexample :
    presan ("".toList) = [] ∧
    sanitize_filename ("".toList) 3 = "unt".toList ∧
    sanitize_filename ("".toList) 3 ≠ "untitled".toList := by
  refine ⟨by decide, by decide, by decide⟩

/-- Concrete instance of `c9_sanitize_spec` at `max_length = 100`. -/
theorem c9_sanitize_spec_witness :
    1 ≤ 100 ∧
    (sanitize_filename (" My: Doc/Name? ".toList) 100 ≠ [] ∧
    (sanitize_filename (" My: Doc/Name? ".toList) 100).length ≤ 100 ∧
    (∀ c ∈ sanitize_filename (" My: Doc/Name? ".toList) 100,
      forbiddenChar c = false ∧ isPythonSpace c = false ∧ isControlChar c = false) ∧
    (sanitize_filename (" My: Doc/Name? ".toList) 100).head? ≠ some '_' ∧
    (sanitize_filename (" My: Doc/Name? ".toList) 100).getLast? ≠ some '_' ∧
    (presan (" My: Doc/Name? ".toList) = [] →
      sanitize_filename (" My: Doc/Name? ".toList) 100 = ("untitled".toList).take 100)) :=
  ⟨by decide, c9_sanitize_spec (" My: Doc/Name? ".toList) 100 (by decide)⟩
